import Mathlib

/-!
Shallow embedding of `src/app.py` (a Streamlit app computing a daily
Price-to-Earnings series from a fetched price history and a single EPS
snapshot), together with theorems settling the specification claims.

Python floats are modelled as `ℚ`; the special value `np.inf`, used by the
code as the sentinel for a non-computable PER, gets its own constructor of
`PerVal`.  A pandas dataframe row becomes a `Row`; the fetched price history
is a list of `Quote`s; the `info` dictionary is the pair of optional EPS
figures the code reads.  `NaN` cells produced by `rolling(...).mean()` are
modelled as `none`.
-/

namespace Nalsa

/-- One row of the fetched price history `hist` (line 48): a trading day and
its closing price (`Close`, line 75). -/
structure Quote where
  date : ℕ
  close : ℚ
deriving DecidableEq, Repr

/-- The fields of `ticker_data.info` (line 58) that `load_data` reads:
`info.get('trailingEps')` and `info.get('forwardEps')` (lines 66 and 68),
each possibly absent. -/
structure Info where
  trailingEps : Option ℚ
  forwardEps : Option ℚ
deriving DecidableEq, Repr

/-- A float cell of the `PER` column: either an ordinary number or the
`np.inf` sentinel written by line 80 when `EPS > 0` fails. -/
inductive PerVal where
  | val : ℚ → PerVal
  | inf : PerVal
deriving DecidableEq, Repr

/-- One row of the dataframe returned by `load_data` (lines 74-80):
`Price` (copied from `Close`), the constant `EPS` column, and `PER`. -/
structure Row where
  date : ℕ
  price : ℚ
  eps : ℚ
  per : PerVal
deriving DecidableEq, Repr

/-- The recoverable failures of the pipeline, as surfaced by the messages at
lines 50 (`NoDataError`), 71 (`MissingEPSError`) and 106 (`NoValidPERError`). -/
inductive BuildError where
  | noData
  | missingEps
  | noValidPer
deriving DecidableEq, Repr

/-- The test `eps is None or eps == 0` used at lines 67 and 70: when it
holds, the candidate is discarded (`none`), otherwise kept. -/
def epsCheck (o : Option ℚ) : Option ℚ :=
  if o = none ∨ o = some 0 then none else o

/-- Lines 66-71: start from `trailingEps`; if that is absent or exactly
zero, fall back to `forwardEps`; if that is also absent or exactly zero,
resolution fails (`None` triggers the error return at line 71). -/
def resolveEps (info : Info) : Option ℚ :=
  epsCheck (if info.trailingEps = none ∨ info.trailingEps = some 0
            then info.forwardEps else info.trailingEps)

/-- Lines 43-82 of `load_data`, after the fetch: fail when `hist` is empty
(lines 49-50); resolve the EPS (lines 66-71); otherwise build the dataframe
with `Price = Close`, the constant `EPS` column, and
`PER = np.where(EPS > 0, Price / EPS, np.inf)` (lines 74-80). -/
def loadData (hist : List Quote) (info : Info) : Except BuildError (List Row) :=
  if hist.isEmpty then Except.error BuildError.noData
  else
    match resolveEps info with
    | none => Except.error BuildError.missingEps
    | some eps =>
        Except.ok (hist.map (fun q =>
          { date := q.date, price := q.close, eps := eps,
            per := if 0 < eps then PerVal.val (q.close / eps) else PerVal.inf }))

/-- The divisors of the floating-point divisions that line 80 actually
executes.  NumPy's `np.where(cond, a, b)` evaluates both argument arrays
eagerly, so `df['Price'] / df['EPS']` divides every row's price by the
resolved EPS whenever line 80 runs at all — i.e. when `hist` is non-empty
and EPS resolution succeeded; otherwise `load_data` returned earlier and no
division ran. -/
def divisionsExecuted (hist : List Quote) (info : Info) : List ℚ :=
  if hist.isEmpty then []
  else
    match resolveEps info with
    | none => []
    | some eps => hist.map (fun _ => eps)

/-- Line 103: `per_data_for_plot = data_df[data_df['PER'] != np.inf]`. -/
def perDataForPlot (df : List Row) : List Row :=
  df.filter (fun r => decide (r.per ≠ PerVal.inf))

/-- The composite builder the spec calls `build`: `load_data` (lines 40-82)
followed by the `inf` filter (line 103) and the emptiness check that surfaces
`NoValidPERError` (lines 105-106). -/
def build (hist : List Quote) (info : Info) : Except BuildError (List Row) :=
  match loadData hist info with
  | Except.error e => Except.error e
  | Except.ok df =>
      if (perDataForPlot df).isEmpty then Except.error BuildError.noValidPer
      else Except.ok (perDataForPlot df)

/-- Default row used with `List.getD` in index-wise statements. -/
def row0 : Row := { date := 0, price := 0, eps := 0, per := PerVal.inf }

/-- Default quote used with `List.getD` in index-wise statements. -/
def quote0 : Quote := { date := 0, close := 0 }

/-- Line 120: `window = 20`. -/
def maWindow : ℕ := 20

/-- Line 121: `per_data_for_plot['PER'].rolling(window=window).mean()`.
pandas' rolling mean with the default `min_periods = window` yields `NaN`
(here `none`) at every position before the window is full, and at position
`i ≥ w - 1` the mean of the `w` values ending at (and including) `i`. -/
def rollingMean (w : ℕ) (xs : List ℚ) : List (Option ℚ) :=
  (List.range xs.length).map (fun i =>
    if i + 1 < w then none
    else some (((xs.drop (i + 1 - w)).take w).sum / (w : ℚ)))

/-- The slope returned by `scipy.stats.linregress(x, y)` (line 136) with
`x = np.arange(len(y))`: the ordinary least-squares slope
`(n·Σxy − Σx·Σy) / (n·Σx² − (Σx)²)`, which is linregress's documented
computation, modelled over `ℚ`. -/
def linregressSlope (ys : List ℚ) : ℚ :=
  let n : ℚ := (ys.length : ℚ)
  let xs : List ℚ := (List.range ys.length).map (fun i : ℕ => (i : ℚ))
  let sx := xs.sum
  let sy := ys.sum
  let sxy := ((xs.zip ys).map (fun p => p.1 * p.2)).sum
  let sxx := (xs.map (fun x => x * x)).sum
  (n * sxy - sx * sy) / (n * sxx - sx * sx)

/-- The intercept returned by `scipy.stats.linregress` for the same fit:
`mean y − slope · mean x`. -/
def linregressIntercept (ys : List ℚ) : ℚ :=
  let xs : List ℚ := (List.range ys.length).map (fun i : ℕ => (i : ℚ))
  (ys.sum - linregressSlope ys * xs.sum) / (ys.length : ℚ)

/-- Lines 135-139: `x_values = np.arange(len(per_data_for_plot))` and
`Trendline = intercept + slope * x_values`, with slope and intercept from
the single `linregress` fit of the PER column against `x_values`. -/
def trendline (ys : List ℚ) : List ℚ :=
  (List.range ys.length).map
    (fun i : ℕ => linregressIntercept ys + linregressSlope ys * (i : ℚ))

/-- The ambient runtime state a Python script could read (wall clock,
random-number generator state).  Lines 40-82 and 103-139 reference neither
`time`/`datetime` nor any random source, so the computation takes the
environment as an argument it never inspects. -/
structure Env where
  wallClock : ℕ
  rngSeed : ℕ
deriving DecidableEq, Repr

/-- One invocation of the pipeline in a given runtime environment: the body
(lines 40-82 and 103-106) uses only the fetched `hist` and `info`. -/
def buildRun (_env : Env) (hist : List Quote) (info : Info) :
    Except BuildError (List Row) :=
  build hist info

/-- Lines 17-21: `st.text_input(...).upper()` — the entered ticker, as a
sequence of characters, mapped character-wise to upper case (Python
`str.upper` on the ASCII tickers this app handles).  No other normalisation
is applied before the ticker is passed to `yf.Ticker` (line 45). -/
def tickerInput (raw : List Char) : List Char :=
  raw.map Char.toUpper

/-- Whitespace trimming as the spec demands it ("trimmed"): surrounding
spaces removed.  Stated from the spec's words, for comparison with
`tickerInput`. -/
def trimChars (raw : List Char) : List Char :=
  ((raw.dropWhile (fun c => decide (c = ' '))).reverse.dropWhile
    (fun c => decide (c = ' '))).reverse

/-- The Input Collector as the spec describes it: trim surrounding
whitespace, then uppercase. -/
def specTickerInput (raw : List Char) : List Char :=
  (trimChars raw).map Char.toUpper

-- Helper lemmas ------------------------------------------------------------

/-- `epsCheck` never keeps an exact zero. -/
theorem epsCheck_ne_zero (o : Option ℚ) (e : ℚ) (h : epsCheck o = some e) :
    e ≠ 0 := by
  intro he
  subst he
  unfold epsCheck at h
  split at h
  · exact Option.noConfusion h
  · rename_i hc
    push_neg at hc
    exact hc.2 h

/-- Characterisation of `epsCheck` succeeding. -/
theorem epsCheck_eq_some (o : Option ℚ) (e : ℚ) :
    epsCheck o = some e ↔ o = some e ∧ e ≠ 0 := by
  constructor
  · intro h
    refine ⟨?_, epsCheck_ne_zero o e h⟩
    unfold epsCheck at h
    split at h
    · exact Option.noConfusion h
    · exact h
  · rintro ⟨ho, he⟩
    subst ho
    unfold epsCheck
    rw [if_neg]
    push_neg
    exact ⟨Option.noConfusion, fun hc => he (Option.some.inj hc)⟩

/-- Characterisation of `epsCheck` failing. -/
theorem epsCheck_eq_none (o : Option ℚ) :
    epsCheck o = none ↔ o = none ∨ o = some 0 := by
  constructor
  · intro h
    by_contra hc
    unfold epsCheck at h
    rw [if_neg hc] at h
    exact hc (Or.inl h)
  · intro h
    unfold epsCheck
    rw [if_pos h]

/-- A resolved EPS is never exactly zero. -/
theorem resolveEps_ne_zero (info : Info) (e : ℚ)
    (h : resolveEps info = some e) : e ≠ 0 :=
  epsCheck_ne_zero _ e h

/-- On a successful load the dataframe is the row-wise image of the quote
history under the resolved EPS. -/
theorem loadData_ok (hist : List Quote) (info : Info) (df : List Row)
    (hok : loadData hist info = Except.ok df) :
    ∃ e, resolveEps info = some e ∧
      df = hist.map (fun q =>
        { date := q.date, price := q.close, eps := e,
          per := if 0 < e then PerVal.val (q.close / e) else PerVal.inf }) := by
  cases hist with
  | nil => simp [loadData] at hok
  | cons q hs =>
    cases hres : resolveEps info with
    | none => simp [loadData, hres] at hok
    | some e =>
      refine ⟨e, rfl, ?_⟩
      simp only [loadData, List.isEmpty_cons, hres] at hok
      simp only [Bool.false_eq_true, if_false, Except.ok.injEq] at hok
      exact hok.symm

-- Claim theorems -----------------------------------------------------------

/-- Claim C1: for every quote history whose EPS resolution yields a positive
value `e`, a successful `load_data` returns one row per quote, and row `i`
carries `price = close[i]` and `per = close[i] / e` (here floating-point
division modelled over `ℚ`). -/
theorem c1_per_is_price_div_eps (hist : List Quote) (info : Info) (e : ℚ)
    (df : List Row)
    (hres : resolveEps info = some e) (hpos : 0 < e)
    (hok : loadData hist info = Except.ok df) :
    df.length = hist.length ∧
    ∀ i, i < hist.length →
      (df.getD i row0).price = (hist.getD i quote0).close ∧
      (df.getD i row0).per = PerVal.val ((hist.getD i quote0).close / e) := by
  obtain ⟨e', hres', hdf⟩ := loadData_ok hist info df hok
  rw [hres] at hres'
  obtain rfl : e = e' := Option.some.inj hres'
  subst hdf
  refine ⟨List.length_map _ _, ?_⟩
  intro i hi
  rw [List.getD_eq_getElem _ _ (by simpa using hi),
      List.getD_eq_getElem _ _ hi, List.getElem_map]
  exact ⟨rfl, by simp [hpos]⟩

/-- Witness for C1 at a concrete input: one quote with close 10, trailing
EPS 2, giving PER 5. -/
theorem c1_witness :
    ([⟨0, 10, 2, PerVal.val 5⟩] : List Row).length =
      ([⟨0, 10⟩] : List Quote).length ∧
    ∀ i, i < ([⟨0, 10⟩] : List Quote).length →
      (([⟨0, 10, 2, PerVal.val 5⟩] : List Row).getD i row0).price =
        (([⟨0, 10⟩] : List Quote).getD i quote0).close ∧
      (([⟨0, 10, 2, PerVal.val 5⟩] : List Row).getD i row0).per =
        PerVal.val ((([⟨0, 10⟩] : List Quote).getD i quote0).close / 2) :=
  c1_per_is_price_div_eps [⟨0, 10⟩]
    { trailingEps := some 2, forwardEps := none } 2
    [⟨0, 10, 2, PerVal.val 5⟩]
    (by decide) (by norm_num)
    (by simp [loadData, resolveEps, epsCheck]; norm_num)

/-- Claim C4: on an empty fetched history the pipeline fails with
`NoDataError`, as an error value rather than a crash, and the result does
not depend on the EPS information at all — no EPS resolution or PER
computation takes place. -/
theorem c4_empty_history (info info2 : Info) :
    loadData ([] : List Quote) info = Except.error BuildError.noData ∧
    build ([] : List Quote) info = Except.error BuildError.noData ∧
    build ([] : List Quote) info = build ([] : List Quote) info2 ∧
    divisionsExecuted ([] : List Quote) info = [] :=
  ⟨rfl, rfl, rfl, rfl⟩

/-- Claim C5: every floating-point division executed by the PER line has a
non-zero divisor — `np.where` evaluates `Price / EPS` eagerly for all rows,
but the line only runs after EPS resolution, which never yields zero. -/
theorem c5_no_zero_divisor (hist : List Quote) (info : Info) (d : ℚ)
    (hmem : d ∈ divisionsExecuted hist info) : d ≠ 0 := by
  unfold divisionsExecuted at hmem
  split at hmem
  · simp at hmem
  · cases hres : resolveEps info with
    | none => rw [hres] at hmem; simp at hmem
    | some eps =>
      rw [hres] at hmem
      simp only [List.mem_map] at hmem
      obtain ⟨q, _, hd⟩ := hmem
      exact hd ▸ resolveEps_ne_zero info eps hres

/-- Witness for C5: with trailing EPS 5 and one quote, the divisor 5 is
executed and is non-zero. -/
theorem c5_witness :
    (5 : ℚ) ∈ divisionsExecuted [{ date := 0, close := 10 }]
      { trailingEps := some 5, forwardEps := none } ∧ (5 : ℚ) ≠ 0 :=
  ⟨by decide, c5_no_zero_divisor [{ date := 0, close := 10 }]
    { trailingEps := some 5, forwardEps := none } 5 (by decide)⟩

/-- Claim C8: the pipeline is a pure function of the fetched quotes and the
EPS info — two runs in arbitrary (e.g. different wall-clock or RNG)
environments on identical inputs return identical results. -/
theorem c8_deterministic (e1 e2 : Env) (hist : List Quote) (info : Info) :
    buildRun e1 hist info = buildRun e2 hist info := rfl

/-- Claim C10: a dataframe successfully returned by `load_data` carries one
constant EPS value on all rows, and its PER column is all-or-nothing: all
rows finite `price / eps` when the resolved EPS is positive, all rows the
infinity sentinel otherwise. -/
theorem c10_per_all_or_nothing (hist : List Quote) (info : Info)
    (df : List Row) (hok : loadData hist info = Except.ok df) :
    ∃ e, resolveEps info = some e ∧
      (∀ r ∈ df, r.eps = e) ∧
      ((0 < e ∧ ∀ r ∈ df, r.per = PerVal.val (r.price / e)) ∨
       (¬ 0 < e ∧ ∀ r ∈ df, r.per = PerVal.inf)) := by
  obtain ⟨e, hres, hdf⟩ := loadData_ok hist info df hok
  subst hdf
  refine ⟨e, hres, ?_, ?_⟩
  · intro r hr
    simp only [List.mem_map] at hr
    obtain ⟨q, _, rfl⟩ := hr
    rfl
  · by_cases hpos : 0 < e
    · refine Or.inl ⟨hpos, ?_⟩
      intro r hr
      simp only [List.mem_map] at hr
      obtain ⟨q, _, rfl⟩ := hr
      simp [hpos]
    · refine Or.inr ⟨hpos, ?_⟩
      intro r hr
      simp only [List.mem_map] at hr
      obtain ⟨q, _, rfl⟩ := hr
      simp [hpos]

/-- Witness for C10 at a concrete successful load (trailing EPS 2). -/
theorem c10_witness :
    ∃ e, resolveEps { trailingEps := some 2, forwardEps := none } = some e ∧
      (∀ r ∈ ([⟨0, 10, 2, PerVal.val 5⟩] : List Row), r.eps = e) ∧
      ((0 < e ∧ ∀ r ∈ ([⟨0, 10, 2, PerVal.val 5⟩] : List Row),
          r.per = PerVal.val (r.price / e)) ∨
       (¬ 0 < e ∧ ∀ r ∈ ([⟨0, 10, 2, PerVal.val 5⟩] : List Row),
          r.per = PerVal.inf)) :=
  c10_per_all_or_nothing [⟨0, 10⟩]
    { trailingEps := some 2, forwardEps := none }
    [⟨0, 10, 2, PerVal.val 5⟩]
    (by simp [loadData, resolveEps, epsCheck]; norm_num)

/-- Claim C3: EPS resolution prefers the trailing figure — a non-zero
trailing EPS, negative included, is used as-is with no fallback; the
forward figure is consulted exactly when the trailing one is absent or
exactly zero; and when both are absent or exactly zero, the pipeline on a
non-empty history fails with `MissingEPSError`. -/
theorem c3_eps_resolution_order (info : Info) (e : ℚ) :
    (resolveEps info = some e ↔
      (info.trailingEps = some e ∧ e ≠ 0) ∨
      ((info.trailingEps = none ∨ info.trailingEps = some 0) ∧
        info.forwardEps = some e ∧ e ≠ 0)) ∧
    (resolveEps info = none ↔
      (info.trailingEps = none ∨ info.trailingEps = some 0) ∧
      (info.forwardEps = none ∨ info.forwardEps = some 0)) ∧
    (∀ q hist, resolveEps info = none →
      build (q :: hist) info = Except.error BuildError.missingEps) := by
  refine ⟨?_, ?_, ?_⟩
  · by_cases hc : info.trailingEps = none ∨ info.trailingEps = some 0
    · rw [resolveEps, if_pos hc, epsCheck_eq_some]
      rcases hc with hc | hc
      · simp [hc]
      · simp [hc]
        tauto
    · rw [resolveEps, if_neg hc, epsCheck_eq_some]
      push_neg at hc
      obtain ⟨hne, h0⟩ := hc
      constructor
      · rintro ⟨ht, he⟩
        exact Or.inl ⟨ht, he⟩
      · rintro (⟨ht, he⟩ | ⟨(hc | hc), _⟩)
        · exact ⟨ht, he⟩
        · exact absurd hc hne
        · exact absurd hc h0
  · by_cases hc : info.trailingEps = none ∨ info.trailingEps = some 0
    · rw [resolveEps, if_pos hc, epsCheck_eq_none]
      simp [hc]
    · rw [resolveEps, if_neg hc, epsCheck_eq_none]
      push_neg at hc
      constructor
      · rintro (hn | h0)
        · exact absurd hn hc.1
        · exact absurd h0 hc.2
      · rintro ⟨ht, _⟩
        exact absurd ht (by tauto)
  · intro q hist hnone
    simp [build, loadData, hnone]

/-- Witness for C3: with both EPS figures absent, `build` on a non-empty
history fails with `MissingEPSError`. -/
theorem c3_witness :
    build [⟨0, 10⟩] { trailingEps := none, forwardEps := none } =
      Except.error BuildError.missingEps :=
  (c3_eps_resolution_order { trailingEps := none, forwardEps := none }
    0).2.2 ⟨0, 10⟩ [] (by decide)

/-- Counterexample to Claim C2 as stated: with an empty quote history and
both EPS figures absent, `build` fails with `NoDataError` — not with
`MissingEPSError` or `NoValidPERError` — because the emptiness check at
lines 49-50 runs before EPS resolution. -/
theorem c2_counterexample :
    resolveEps { trailingEps := none, forwardEps := none } = none ∧
    build ([] : List Quote) { trailingEps := none, forwardEps := none } =
      Except.error BuildError.noData ∧
    ¬ (build ([] : List Quote) { trailingEps := none, forwardEps := none } =
         Except.error BuildError.missingEps ∨
       build ([] : List Quote) { trailingEps := none, forwardEps := none } =
         Except.error BuildError.noValidPer) := by
  refine ⟨rfl, rfl, ?_⟩
  rintro (h | h) <;> simp [build, loadData] at h

/-- Claim C2 (amended): when the resolved EPS is non-positive or absent,
`build` never returns a series (so in particular never one with a numeric
PER), and on a NON-EMPTY quote history it fails with `MissingEPSError` or
`NoValidPERError`; an empty history fails with `NoDataError` instead. -/
theorem c2_nonpositive_eps (hist : List Quote) (info : Info)
    (hbad : resolveEps info = none ∨
      ∃ e, resolveEps info = some e ∧ e ≤ 0) :
    (∀ df, build hist info ≠ Except.ok df) ∧
    (hist ≠ [] →
      build hist info = Except.error BuildError.missingEps ∨
      build hist info = Except.error BuildError.noValidPer) := by
  cases hist with
  | nil =>
    refine ⟨?_, fun h => absurd rfl h⟩
    intro df h
    simp [build, loadData] at h
  | cons q hs =>
    have hkey : build (q :: hs) info = Except.error BuildError.missingEps ∨
        build (q :: hs) info = Except.error BuildError.noValidPer := by
      rcases hbad with hnone | ⟨e, hres, hle⟩
      · exact Or.inl (by simp [build, loadData, hnone])
      · refine Or.inr ?_
        have hnpos : ¬ 0 < e := not_lt.mpr hle
        simp only [build, loadData, List.isEmpty_cons, Bool.false_eq_true,
          if_false, hres]
        have hfil : perDataForPlot ((q :: hs).map (fun q =>
            ({ date := q.date, price := q.close, eps := e,
               per := if 0 < e then PerVal.val (q.close / e)
                      else PerVal.inf } : Row))) = [] := by
          simp [perDataForPlot, List.filter_eq_nil_iff, hnpos]
        rw [hfil]
        rfl
    refine ⟨?_, fun _ => hkey⟩
    intro df h
    rcases hkey with hk | hk <;> rw [hk] at h <;> exact Except.noConfusion h

/-- Witness for C2 (amended): trailing EPS −1 on one quote makes `build`
fail with one of the two errors (here `NoValidPERError`). -/
theorem c2_witness :
    build [⟨0, 10⟩] { trailingEps := some (-1), forwardEps := none } =
      Except.error BuildError.missingEps ∨
    build [⟨0, 10⟩] { trailingEps := some (-1), forwardEps := none } =
      Except.error BuildError.noValidPer :=
  (c2_nonpositive_eps [⟨0, 10⟩]
    { trailingEps := some (-1), forwardEps := none }
    (Or.inr ⟨-1, by decide, by norm_num⟩)).2 (by simp)

/-- Counterexample to Claim C9 as stated: on the input `" aapl "` the code
produces `" AAPL "` (uppercased only), while trimming-then-uppercasing
would produce `"AAPL"` — the Input Collector does not trim whitespace. -/
theorem c9_counterexample :
    tickerInput " aapl ".toList = " AAPL ".toList ∧
    specTickerInput " aapl ".toList = "AAPL".toList ∧
    tickerInput " aapl ".toList ≠ specTickerInput " aapl ".toList := by
  decide

/-- Claim C9 (amended): the Input Collector uppercases the entered ticker
character by character and performs no trimming — the output has exactly
the characters of the input, uppercased, surrounding whitespace included. -/
theorem c9_uppercase_no_trim (raw : List Char) (k : ℕ) :
    (tickerInput raw).length = raw.length ∧
    (k < raw.length →
      (tickerInput raw).getD k 'A' = (raw.getD k 'A').toUpper) := by
  refine ⟨List.length_map _ _, ?_⟩
  intro hk
  have hk2 : k < (tickerInput raw).length := by
    simp only [tickerInput, List.length_map]
    exact hk
  rw [List.getD_eq_getElem _ _ hk2, List.getD_eq_getElem _ _ hk]
  simp [tickerInput]

/-- Witness for C9 (amended) on the concrete input `" a"`: position 0 keeps
its space, position 1 is uppercased. -/
theorem c9_witness :
    ((tickerInput " a".toList).getD 0 'A' =
      ((" a".toList).getD 0 'A').toUpper) ∧
    ((tickerInput " a".toList).getD 1 'A' =
      ((" a".toList).getD 1 'A').toUpper) :=
  ⟨(c9_uppercase_no_trim " a".toList 0).2 (by decide),
   (c9_uppercase_no_trim " a".toList 1).2 (by decide)⟩

/-- A contiguous slice of a list, written with `drop`/`take` as in the
rolling-window computation, enumerated position by position. -/
theorem slice_eq_map_range (xs : List ℚ) (a b : ℕ) (h : a + b ≤ xs.length) :
    (xs.drop a).take b = (List.range b).map (fun j => xs.getD (a + j) 0) := by
  apply List.ext_getElem
  · simp only [List.length_take, List.length_drop, List.length_map,
      List.length_range]
    omega
  · intro i h1 h2
    have hib : i < b := by
      simpa using h2
    have hax : a + i < xs.length := by omega
    rw [List.getElem_take, List.getElem_drop, List.getElem_map,
      List.getElem_range, List.getD_eq_getElem _ _ hax]

/-- Claim C6: the rolling mean over window `W = 20` (line 121) has one cell
per PER value; at every index `i ≥ W − 1` it equals the arithmetic mean of
the `W` values of the trailing window ending at (and including) `i`; and
the first `W − 1` positions carry no value at all (no backfill). -/
theorem c6_moving_average (xs : List ℚ) (i : ℕ) :
    (rollingMean maWindow xs).length = xs.length ∧
    (maWindow - 1 ≤ i → i < xs.length →
      (rollingMean maWindow xs).getD i none =
        some (((List.range maWindow).map
          (fun j => xs.getD (i + 1 - maWindow + j) 0)).sum / (maWindow : ℚ))) ∧
    (i < maWindow - 1 → (rollingMean maWindow xs).getD i none = none) := by
  have hw : maWindow = 20 := rfl
  have hlen : (rollingMean maWindow xs).length = xs.length := by
    simp [rollingMean]
  refine ⟨hlen, ?_, ?_⟩
  · intro h19 hi
    have hi2 : i < (rollingMean maWindow xs).length := by rw [hlen]; exact hi
    rw [List.getD_eq_getElem _ _ hi2]
    simp only [rollingMean, List.getElem_map, List.getElem_range]
    rw [if_neg (by omega)]
    rw [slice_eq_map_range xs (i + 1 - maWindow) maWindow (by omega)]
  · intro hlt
    by_cases hi : i < xs.length
    · have hi2 : i < (rollingMean maWindow xs).length := by rw [hlen]; exact hi
      rw [List.getD_eq_getElem _ _ hi2]
      simp only [rollingMean, List.getElem_map, List.getElem_range]
      rw [if_pos (by omega)]
    · rw [List.getD_eq_default]
      rw [hlen]
      omega

/-- Witness for C6 on 20 constant PER values 1: the mean is defined at
index 19 (and by the theorem equals the displayed window mean), while
index 0 carries no value. -/
theorem c6_witness :
    ((rollingMean maWindow (List.replicate 20 (1 : ℚ))).getD 19 none =
      some (((List.range maWindow).map
        (fun j => (List.replicate 20 (1 : ℚ)).getD (19 + 1 - maWindow + j) 0)).sum /
          (maWindow : ℚ))) ∧
    (rollingMean maWindow (List.replicate 20 (1 : ℚ))).getD 0 none = none :=
  ⟨(c6_moving_average (List.replicate 20 (1 : ℚ)) 19).2.1 (by decide)
      (by simp),
   (c6_moving_average (List.replicate 20 (1 : ℚ)) 0).2.2 (by decide)⟩

/-- Claim C7: the trendline is one affine function of the zero-based index
over the whole defined PER sequence — its value at any index `j` is
`intercept + slope · j` for the single least-squares fit, so consecutive
values always differ by exactly that slope. -/
theorem c7_trendline_affine (ys : List ℚ) (j : ℕ) (h : j + 1 < ys.length) :
    (trendline ys).getD j 0 =
      linregressIntercept ys + linregressSlope ys * (j : ℚ) ∧
    (trendline ys).getD (j + 1) 0 - (trendline ys).getD j 0 =
      linregressSlope ys := by
  have hj : j < ys.length := Nat.lt_of_succ_lt h
  have h1 : j < (trendline ys).length := by
    simp only [trendline, List.length_map, List.length_range]
    exact hj
  have h2 : j + 1 < (trendline ys).length := by
    simp only [trendline, List.length_map, List.length_range]
    exact h
  rw [List.getD_eq_getElem _ _ h1, List.getD_eq_getElem _ _ h2]
  simp only [trendline, List.getElem_map, List.getElem_range]
  refine ⟨trivial, ?_⟩
  push_cast
  ring

/-- Witness for C7 on the concrete PER series `[0, 2, 4]` at `j = 0`. -/
theorem c7_witness :
    ((trendline [0, 2, 4]).getD 0 0 =
      linregressIntercept [0, 2, 4] + linregressSlope [0, 2, 4] * ((0 : ℕ) : ℚ)) ∧
    ((trendline [0, 2, 4]).getD (0 + 1) 0 - (trendline [0, 2, 4]).getD 0 0 =
      linregressSlope [0, 2, 4]) :=
  c7_trendline_affine [0, 2, 4] 0 (by simp)

end Nalsa
